import Mathlib

/-!
Shallow embedding of the vertex-pool / index-integrity subsystem and the
triangulation attribute propagation of the cjio CityJSON processing engine
(`src/cjio/cityjson.py` and `src/cjio/geom_help.py`), together with proofs
about its behaviour.

Real coordinates are modelled as rationals (`ℚ`); quantized coordinates are
integers stored in the same pool (cast into `ℚ`), exactly as the source keeps
Python ints and floats in the same `vertices` list.  The file is organised as
definitions first (the embedding), then theorems (the verification).
-/

namespace Cjio

/- The rational arithmetic of the embedding must evaluate on concrete inputs
(the library marks these operations irreducible for performance only). -/
attribute [local semireducible] Rat.add Rat.mul Rat.sub Rat.inv Rat.ofScientific

set_option maxRecDepth 100000

/-- A 3D coordinate triple, as stored in the `vertices` pool. -/
abbrev Vec3 := ℚ × ℚ × ℚ

/-- Arbitrarily nested index arrays: the representation of `boundaries`,
material `values` and texture `values` in the source — nested Python lists
whose leaves are integers or `None`. -/
inductive Nested (α : Type) where
  | leaf : α → Nested α
  | node : List (Nested α) → Nested α

/-- Geometry/material index arrays: leaves are vertex-pool (or material-table)
indices, possibly `None` (the source visitor guards `each is not None`). -/
abbrev GArr := Nested (Option Nat)

mutual
/-- `update_geom_indices` (cityjson.py lines 187–193): add `offset` to every
non-null leaf of a nested index array. -/
def update_geom_indices (offset : Nat) : GArr → GArr
  | .leaf none => .leaf none
  | .leaf (some v) => .leaf (some (v + offset))
  | .node l => .node (update_geom_indices_list offset l)

/-- The recursion of `update_geom_indices` over the children of a node. -/
def update_geom_indices_list (offset : Nat) : List GArr → List GArr
  | [] => []
  | c :: cs => update_geom_indices offset c :: update_geom_indices_list offset cs
end

mutual
/-- `update_texture_indices` (cityjson.py lines 196–205): positional rule —
inside any list, the element at position 0, when it is a non-null scalar, is
offset by `toffset` (texture-table offset) and the elements at positions ≥ 1
by `voffset` (uv-vertex-pool offset); nested lists are recursed into and null
scalars stay null.  `i` is the position of the element in the enclosing list. -/
def update_texture_one (toffset voffset i : Nat) : Nested (Option Nat) → Nested (Option Nat)
  | .leaf none => .leaf none
  | .leaf (some x) => .leaf (some (x + if i = 0 then toffset else voffset))
  | .node l => .node (update_texture_aux toffset voffset 0 l)

/-- The enumerated loop `for i, each in enumerate(a)` of `update_texture_indices`. -/
def update_texture_aux (toffset voffset i : Nat) : List (Nested (Option Nat)) →
    List (Nested (Option Nat))
  | [] => []
  | c :: cs => update_texture_one toffset voffset i c :: update_texture_aux toffset voffset (i + 1) cs
end

/-- Entry point of `update_texture_indices`: the source is always called on a
list (the texture `values` array). -/
def update_texture_indices (toffset voffset : Nat) (a : List (Nested (Option Nat))) :
    List (Nested (Option Nat)) :=
  update_texture_aux toffset voffset 0 a

mutual
/-- All leaves of a nested index array, in traversal order. -/
def nestedLeaves {α : Type} : Nested α → List α
  | .leaf x => [x]
  | .node l => nestedLeavesList l

/-- Leaves of a list of nested arrays, in order. -/
def nestedLeavesList {α : Type} : List (Nested α) → List α
  | [] => []
  | c :: cs => nestedLeaves c ++ nestedLeavesList cs
end

mutual
/-- Apply `f` to every leaf of a nested array (the shape of the in-place leaf
rewrites done by the local visitors of `remove_orphan_vertices` and
`remove_duplicate_vertices`). -/
def mapLeaves {α β : Type} (f : α → β) : Nested α → Nested β
  | .leaf x => .leaf (f x)
  | .node l => .node (mapLeavesList f l)

/-- `mapLeaves` over the children of a node. -/
def mapLeavesList {α β : Type} (f : α → β) : List (Nested α) → List (Nested β)
  | [] => []
  | c :: cs => mapLeaves f c :: mapLeavesList f cs
end

/- ------------------------------------------------------------------ -/
/- First-seen-order deduplication, the pattern shared by the `h` dict of
   `remove_duplicate_vertices` and the `oldnewids`/`newvertices` pair of
   `remove_orphan_vertices`: keep the first occurrence of each element,
   preserving encounter order. -/

/-- Append each element of the input to `acc` unless already present:
first-seen-order deduplication. -/
def firstSeenAux {α : Type} [DecidableEq α] (acc : List α) : List α → List α
  | [] => acc
  | x :: xs => if x ∈ acc then firstSeenAux acc xs else firstSeenAux (acc ++ [x]) xs

/-- Index of the first occurrence of `a` in a list (the value that the
`oldnewids` / `h` dictionaries of the source associate to a key, since a key
is mapped to the length of the output list at its first encounter). -/
def firstIndexOf {α : Type} [DecidableEq α] (a : α) : List α → Nat
  | [] => 0
  | x :: xs => if x = a then 0 else firstIndexOf a xs + 1

/- ------------------------------------------------------------------ -/
/- The in-memory city model: the slice of the CityJSON tree that the vertex
   pool manager and the offset merge engine read and write. -/

/-- The quantization transform.  The source stores `scale = [s, s, s]` with
`s = 10^(-important_digits)` (set by `compress`) and recovers the digit count
with `ceil(abs(log10(scale[0])))`; the scale is therefore represented here by
its decimal digit count, an exact inverse pair for the scales the engine
creates. -/
structure Transform where
  digits : Nat
  translate : Vec3

/-- One material binding (one theme of a geometry's `material` member): either
a whole-geometry scalar `value` or a face-congruent `values` array. -/
inductive MatBinding where
  | value : Nat → MatBinding
  | values : GArr → MatBinding

/-- One geometry of a CityObject.  A texture theme carries `some values` when
the binding has its `values` member and `none` when it is missing (the
structural error case of the merge).  `template` is the template-table index
of a `GeometryInstance`. -/
structure Geom where
  gtype : String
  lod : String
  boundaries : GArr
  material : List (String × MatBinding) := []
  texture : List (String × Option (List GArr)) := []
  template : Option Nat := none

/-- A CityObject: attribute values are opaque strings here.  An absent
`attributes`/`geometry` member is modelled as the empty list. -/
structure CityObject where
  attributes : List (String × String) := []
  geometry : List Geom := []

/-- The `appearance` member.  Material and texture definitions themselves are
opaque (only their count — the offsets — matters to the engine). -/
structure Appearance where
  materials : Option (List String) := none
  textures : Option (List String) := none
  verticesTexture : Option (List (ℚ × ℚ)) := none

/-- The `geometry-templates` member. -/
structure GeometryTemplates where
  templates : List Geom := []
  verticesTemplates : List Vec3 := []

/-- The city model: an insertion-ordered id→CityObject map (Python dicts
preserve insertion order), the shared vertex pool, and the optional
transform / appearance / geometry-templates members. -/
structure CityModel where
  cityObjects : List (String × CityObject)
  vertices : List Vec3
  transform : Option Transform := none
  appearance : Option Appearance := none
  geometryTemplates : Option GeometryTemplates := none

/-- All boundary leaves of all geometries of all CityObjects, in the order of
the source's traversal (`for theid in CityObjects: for g in geometry`). -/
def allBoundaryLeaves (cos : List (String × CityObject)) : List (Option Nat) :=
  cos.flatMap fun idco => idco.2.geometry.flatMap fun g => nestedLeaves g.boundaries

/-- Rewrite the boundaries of every geometry of every CityObject. -/
def mapGeomBoundaries (f : GArr → GArr) (cos : List (String × CityObject)) :
    List (String × CityObject) :=
  cos.map fun idco =>
    (idco.1, { idco.2 with
      geometry := idco.2.geometry.map fun g => { g with boundaries := f g.boundaries } })

/-- `CityJSON.remove_orphan_vertices` (cityjson.py lines 881–917): collect the
referenced vertex ids in first-encounter order (`visit_geom` filling
`oldnewids` and `newvertices`), rewrite every leaf to its new id
(`update_face`), and keep only the referenced vertices in encounter order.
Returns the new model and the number of removed vertices.  The source indexes
`self.j["vertices"][v]` and would raise on a null or out-of-range leaf; that
is modelled by a `(0,0,0)` default, never exercised under the validity
hypotheses of the theorems below. -/
def remove_orphan_vertices (s : CityModel) : CityModel × Nat :=
  let totalinput := s.vertices.length
  let used := firstSeenAux [] (allBoundaryLeaves s.cityObjects)
  let cos' := mapGeomBoundaries (mapLeaves fun o => some (firstIndexOf o used)) s.cityObjects
  let newv := used.map fun o => o.elim (0, 0, 0) fun i => s.vertices.getD i (0, 0, 0)
  ({ s with cityObjects := cos', vertices := newv }, totalinput - newv.length)

/-- `CityJSON.remove_duplicate_vertices` (cityjson.py lines 919–955): the dict
`h` keyed by the exact coordinate string `"{x} {y} {z}"` maps each distinct
vertex to its first-seen rank; `newids[i]` is that rank for vertex `i`, every
leaf is rewritten through `newids`, and the pool keeps one copy of each
distinct vertex in first-seen order (the string key is parsed back to the
stored int/float values, an exact round trip).  Returns the new model and the
number of removed duplicates.  A null or out-of-range leaf would raise in the
source (`newids[each]`); modelled by a default, never exercised under the
validity hypotheses used below. -/
def remove_duplicate_vertices (s : CityModel) : CityModel × Nat :=
  let totalinput := s.vertices.length
  let pool := firstSeenAux [] s.vertices
  let cos' := mapGeomBoundaries
    (mapLeaves fun o => some (firstIndexOf (s.vertices.getD (o.getD 0) (0, 0, 0)) pool))
    s.cityObjects
  ({ s with cityObjects := cos', vertices := pool }, totalinput - pool.length)

/-- One quantized coordinate of `CityJSON.compress` (cityjson.py line 983):
`int(("%.kf" % (c - origin)).replace(".", ""))` — format the shifted
coordinate with `k` decimal digits and drop the point, i.e. the decimal
rounding of `(c - origin) * 10^k` to the nearest integer.  Modelled as
`round`; the formatter's behaviour at exact half-way ties is immaterial to
every statement below. -/
def quantizeCoord (k : Nat) (origin c : ℚ) : ℤ :=
  round ((c - origin) * (10 : ℚ) ^ k)

/-- Quantize a vertex against the translation origin `bbox`. -/
def quantizeVec (k : Nat) (bbox v : Vec3) : Vec3 :=
  ((quantizeCoord k bbox.1 v.1 : ℚ), (quantizeCoord k bbox.2.1 v.2.1 : ℚ),
    (quantizeCoord k bbox.2.2 v.2.2 : ℚ))

/-- The per-axis minimum of the pool, with the source's `[9e9, 9e9, 9e9]`
initial value (`if v[i] < bbox[i]: bbox[i] = v[i]`). -/
def bboxMin (verts : List Vec3) : Vec3 :=
  verts.foldl (fun acc v => (min acc.1 v.1, min acc.2.1 v.2.1, min acc.2.2 v.2.2))
    (9 * 10 ^ 9, 9 * 10 ^ 9, 9 * 10 ^ 9)

/-- The scale the transform denotes: `ss = 1.0 / 10^important_digits`
(cityjson.py line 986). -/
def transformScale (t : Transform) : ℚ := 1 / (10 : ℚ) ^ t.digits

/-- `CityJSON.compress` (cityjson.py lines 957–994): refuse (return `false`)
when a transform is already present; otherwise translate by the given or
computed per-axis minimum, quantize every coordinate to `important_digits`
decimals, set the transform, and clean the pool with
`remove_duplicate_vertices` followed by `remove_orphan_vertices`. -/
def compress (s : CityModel) (important_digits : Nat) (translate : Option Vec3) :
    CityModel × Bool :=
  match s.transform with
  | some _ => (s, false)
  | none =>
    let bbox := match translate with
      | some t => t
      | none => bboxMin s.vertices
    let s1 := { s with
      vertices := s.vertices.map (quantizeVec important_digits bbox),
      transform := some { digits := important_digits, translate := bbox } }
    let s2 := (remove_duplicate_vertices s1).1
    let s3 := (remove_orphan_vertices s2).1
    (s3, true)

/-- `CityJSON.decompress` (cityjson.py lines 996–1011): no-op returning
`false` when no transform is present; otherwise map every coordinate through
`real = q * scale + translate` and clear the transform. -/
def decompress (s : CityModel) : CityModel × Bool :=
  match s.transform with
  | none => (s, false)
  | some t =>
    ({ s with
        vertices := s.vertices.map fun v =>
          (v.1 * transformScale t + t.translate.1,
            v.2.1 * transformScale t + t.translate.2.1,
            v.2.2 * transformScale t + t.translate.2.2),
        transform := none }, true)

/- ------------------------------------------------------------------ -/
/- The offset merge engine, `CityJSON.merge` (cityjson.py lines 1086–1232).
   Python exceptions raised inside `merge` propagate to the caller; they are
   modelled as an `Option MergeErr` alongside the state mutated so far. -/

/-- The exceptions `merge` can raise: a `KeyError` reading the missing
`transform` of the target (line 1096) or of a source dataset (line 1101), and
the explicit `KeyError` for a texture binding without `values` (line 1224). -/
inductive MergeErr where
  | noTransformTarget
  | noTransformSource
  | missingTextureValues (theid m : String)
  deriving DecidableEq

/-- Dict lookup on the insertion-ordered id→CityObject map. -/
def lookupCO : List (String × CityObject) → String → Option CityObject
  | [], _ => none
  | (k, v) :: rest, theid => if k = theid then some v else lookupCO rest theid

/-- Dict assignment to an existing key: replace the value in place. -/
def updateCO : List (String × CityObject) → String → CityObject → List (String × CityObject)
  | [], _, _ => []
  | (k, v) :: rest, theid, co =>
    if k = theid then (k, co) :: rest else (k, v) :: updateCO rest theid co

/-- A copied geometry with its boundary indices shifted by the vertex offset
(`update_geom_indices(g["boundaries"], offset)`). -/
def offsetGeomBoundaries (offset : Nat) (g : Geom) : Geom :=
  { g with boundaries := update_geom_indices offset g.boundaries }

/-- Attribute union on an id clash (merge lines 1110–1115): a source
attribute is added only if its name is not already present — the target's
value wins. -/
def mergeAttributes (tgt src : List (String × String)) : List (String × String) :=
  src.foldl (fun acc kv => if acc.any (fun p => p.1 = kv.1) then acc else acc ++ [kv]) tgt

/-- Geometry union by LoD on an id clash (merge lines 1116–1132): a source
geometry is appended — with offset vertex indices — only when no geometry
already in the (growing) target list carries its LoD. -/
def mergeGeomsByLod (offset : Nat) (tgt src : List Geom) : List Geom :=
  src.foldl (fun acc g =>
    if acc.any (fun g2 => g2.lod = g.lod) then acc
    else acc ++ [offsetGeomBoundaries offset g]) tgt

/-- The CityObjects splice of one source dataset (merge lines 1106–1138): an
id present in both gets its attributes unioned and its geometry list merged
by LoD; an id only in the source is copied wholesale with offset boundaries.
An absent `geometry`/`attributes` member is modelled as the empty list (the
source skips the geometry merge when the member is missing from the target
and would raise on attribute union into an object with no `attributes`
member; no theorem below exercises those corners). -/
def spliceCityObjects (offset : Nat) (tgt src : List (String × CityObject)) :
    List (String × CityObject) :=
  src.foldl (fun acc idco =>
    match lookupCO acc idco.1 with
    | some co0 =>
      let co1 := { co0 with
        attributes := mergeAttributes co0.attributes idco.2.attributes,
        geometry := mergeGeomsByLod offset co0.geometry idco.2.geometry }
      updateCO acc idco.1 co1
    | none =>
      acc ++ [(idco.1, { idco.2 with
        geometry := idco.2.geometry.map (offsetGeomBoundaries offset) })]) tgt

/-- The loop `for theid in cm.j["CityObjects"]: for g in self...geometry:`
shared by the template and material phases: rewrite, through `f`, every
geometry of the target CityObjects named by the source's ids.  An id missing
from the target is skipped (unreachable after the splice, where the source
would raise a `KeyError`). -/
def updateGeomsOfIds (f : Geom → Geom) (acc : List (String × CityObject)) :
    List (String × CityObject) → List (String × CityObject)
  | [] => acc
  | idco :: rest =>
    match lookupCO acc idco.1 with
    | some co =>
      updateGeomsOfIds f (updateCO acc idco.1 { co with geometry := co.geometry.map f }) rest
    | none => updateGeomsOfIds f acc rest

/-- The geometry-templates phase (merge lines 1139–1166): append the source's
templates (their boundaries shifted by the template-vertex-pool offset) and
template vertices, then shift the `template` reference of every
`GeometryInstance` of the source's ids by the template-table offset. -/
def mergeTemplatesPhase (self cmd : CityModel) : CityModel :=
  match cmd.geometryTemplates with
  | none => self
  | some gt =>
    let tgt := (self.geometryTemplates).getD { templates := [], verticesTemplates := [] }
    let notemplates := match self.geometryTemplates with
      | some g0 => g0.templates.length
      | none => 0
    let novtemplate := match self.geometryTemplates with
      | some g0 => g0.verticesTemplates.length
      | none => 0
    let gt' : GeometryTemplates := {
      templates := tgt.templates ++ gt.templates.map (offsetGeomBoundaries novtemplate),
      verticesTemplates := tgt.verticesTemplates ++ gt.verticesTemplates }
    let cos := updateGeomsOfIds
      (fun g => if g.gtype = "GeometryInstance" then
          { g with template := g.template.map (· + notemplates) }
        else g)
      self.cityObjects cmd.cityObjects
    { self with cityObjects := cos, geometryTemplates := some gt' }

/-- Offset one material binding (merge lines 1183–1192): the `values` array
goes through the index visitor, a scalar `value` is shifted directly. -/
def offsetMatBinding (offset : Nat) : MatBinding → MatBinding
  | .values a => .values (update_geom_indices offset a)
  | .value v => .value (v + offset)

/-- The materials phase (merge lines 1167–1192): adopt or append the source's
material table and shift every material binding of the source ids'
geometries by the table offset. -/
def mergeMaterialsPhase (self cmd : CityModel) : CityModel :=
  match cmd.appearance with
  | none => self
  | some app =>
    match app.materials with
    | none => self
    | some mats =>
      let selfApp := (self.appearance).getD {}
      let offset := match self.appearance with
        | some sapp => match sapp.materials with
          | some smats => smats.length
          | none => 0
        | none => 0
      let selfApp' := { selfApp with materials := some ((selfApp.materials.getD []) ++ mats) }
      let cos := updateGeomsOfIds
        (fun g => { g with material := g.material.map fun tm => (tm.1, offsetMatBinding offset tm.2) })
        self.cityObjects cmd.cityObjects
      { self with cityObjects := cos, appearance := some selfApp' }

/-- The texture-theme update of one geometry (merge lines 1218–1226): themes
are processed in order; a theme with `values` goes through the two-phase
visitor, a theme without `values` raises, leaving the later themes
untouched.  Returns the failing theme's name on error. -/
def updateTexturesThemes (t v : Nat) : List (String × Option (List GArr)) →
    List (String × Option (List GArr)) × Option String
  | [] => ([], none)
  | (m, none) :: rest => ((m, none) :: rest, some m)
  | (m, some vals) :: rest =>
    let r := updateTexturesThemes t v rest
    ((m, some (update_texture_indices t v vals)) :: r.1, r.2)

/-- The texture update over one CityObject's geometry list, stopping at the
first missing-`values` theme but keeping the updates already applied. -/
def updateTexturesGeomList (t v : Nat) : List Geom → List Geom × Option String
  | [] => ([], none)
  | g :: gs =>
    let r := updateTexturesThemes t v g.texture
    match r.2 with
    | some m => ({ g with texture := r.1 } :: gs, some m)
    | none =>
      let r2 := updateTexturesGeomList t v gs
      ({ g with texture := r.1 } :: r2.1, r2.2)

/-- The texture update loop over the source's ids (merge lines 1215–1226),
raising `missingTextureValues` at the first texture binding without a
`values` member and stopping there. -/
def mergeTexUpdateIds (t v : Nat) (acc : List (String × CityObject)) :
    List (String × CityObject) → List (String × CityObject) × Option MergeErr
  | [] => (acc, none)
  | idco :: rest =>
    match lookupCO acc idco.1 with
    | none => mergeTexUpdateIds t v acc rest
    | some co =>
      let r := updateTexturesGeomList t v co.geometry
      match r.2 with
      | some m =>
        (updateCO acc idco.1 { co with geometry := r.1 },
          some (.missingTextureValues idco.1 m))
      | none => mergeTexUpdateIds t v (updateCO acc idco.1 { co with geometry := r.1 }) rest

/-- The textures phase (merge lines 1193–1226): compute the texture-table and
uv-vertex-pool offsets (0 when the target had no texture table), append the
source's uv vertices and texture table, then update every texture binding of
the source ids' geometries, raising on a binding without `values`. -/
def mergeTexturesPhase (self cmd : CityModel) : CityModel × Option MergeErr :=
  match cmd.appearance with
  | none => (self, none)
  | some app =>
    match app.textures with
    | none => (self, none)
    | some texs =>
      let selfApp := (self.appearance).getD {}
      let toffset := match self.appearance with
        | some sapp => (sapp.textures.getD []).length
        | none => 0
      let voffset := match self.appearance with
        | some sapp => if sapp.textures.isSome then (sapp.verticesTexture.getD []).length else 0
        | none => 0
      let selfApp' := { selfApp with
        verticesTexture := some ((selfApp.verticesTexture.getD []) ++ (app.verticesTexture.getD [])),
        textures := some ((selfApp.textures.getD []) ++ texs) }
      let s := { self with appearance := some selfApp' }
      let r := mergeTexUpdateIds toffset voffset s.cityObjects cmd.cityObjects
      ({ s with cityObjects := r.1 }, r.2)

/-- The per-source-dataset body of `merge` (lines 1099–1226): raise when the
source has no transform; otherwise raise the running digit count to the
source's if larger, decompress the source, splice vertices and CityObjects
at the vertex offset, then run the template, material and texture phases. -/
def mergeOneCM (self : CityModel) (digits : Nat) (cm : CityModel) :
    CityModel × Nat × Option MergeErr :=
  match cm.transform with
  | none => (self, digits, some .noTransformSource)
  | some tc =>
    let digits' := if tc.digits > digits then tc.digits else digits
    let cmd := (decompress cm).1
    let offset := self.vertices.length
    let s1 := { self with vertices := self.vertices ++ cmd.vertices }
    let s2 := { s1 with cityObjects := spliceCityObjects offset s1.cityObjects cmd.cityObjects }
    let s3 := mergeTemplatesPhase s2 cmd
    let s4 := mergeMaterialsPhase s3 cmd
    let r := mergeTexturesPhase s4 cmd
    (r.1, digits', r.2)

/-- The `for cm in lsCMs` loop of `merge`, stopping at the first raise and
keeping the state mutated so far. -/
def mergeLoop (self : CityModel) (digits : Nat) : List CityModel →
    CityModel × Nat × Option MergeErr
  | [] => (self, digits, none)
  | cm :: rest =>
    let r := mergeOneCM self digits cm
    match r.2.2 with
    | some e => (r.1, r.2.1, some e)
    | none => mergeLoop r.1 r.2.1 rest

/-- `CityJSON.merge` (cityjson.py lines 1086–1232): read the target's digit
count from its transform (raising when absent), decompress the target, splice
every source dataset, then deduplicate, drop orphans and re-quantize at the
accumulated digit count.  (`update_bbox` only refreshes the metadata bounding
box, which is outside this model.) -/
def merge (self : CityModel) (lsCMs : List CityModel) : CityModel × Option MergeErr :=
  match self.transform with
  | none => (self, some .noTransformTarget)
  | some t0 =>
    let r := mergeLoop (decompress self).1 t0.digits lsCMs
    match r.2.2 with
    | some e => (r.1, some e)
    | none =>
      let s1 := (remove_duplicate_vertices r.1).1
      let s2 := (remove_orphan_vertices s1).1
      ((compress s2 r.2.1 none).1, none)

/-- The list of every geometry's boundary array across all CityObjects. -/
def allBoundariesOf (cos : List (String × CityObject)) : List GArr :=
  cos.flatMap fun idco => idco.2.geometry.map (·.boundaries)

/- ------------------------------------------------------------------ -/
/- The triangulation engine, `geom_help.py`.  The 2D projection (`to_2d`,
   which divides by the norm of the normal — a square root outside ℚ) and the
   external triangulators (`triangle.triangulate`, `mapbox_earcut`) are
   modelled together as an opaque function parameter; everything up to and
   after that call is translated from the source. -/

/-- The Newell accumulation of `get_normal_newell` (geom_help.py lines
37–47): over consecutive (wrap-around) vertex pairs,
`n.x += (y_i - y_j) * (z_i + z_j)` and cyclic permutations.  (The guard
`len(p) < 3: continue` never fires — the rows of `vnp` are 3-vectors.) -/
def newellAccum (poly : List Vec3) : Vec3 :=
  (List.range poly.length).foldl
    (fun n i =>
      let p := poly.getD i (0, 0, 0)
      let q := poly.getD ((i + 1) % poly.length) (0, 0, 0)
      (n.1 + (p.2.1 - q.2.1) * (p.2.2 + q.2.2),
        n.2.1 + (p.2.2 - q.2.2) * (p.1 + q.1),
        n.2.2 + (p.1 - q.1) * (p.2.1 + q.2.1)))
    (0, 0, 0)

/-- `get_normal_newell` (geom_help.py lines 33–53): the accumulated vector and
`False` when it is exactly the zero vector; on success the source divides the
vector by its norm (a square root, irrelevant to every statement below, which
only concern the flag). -/
def get_normal_newell (poly : List Vec3) : Vec3 × Bool :=
  let n := newellAccum poly
  if n = ((0 : ℚ), (0 : ℚ), (0 : ℚ)) then (n, false) else (n, true)

/-- `sfv = vnp[sf]`: the coordinates of the concatenated ring indices (the
source raises on an out-of-range index; modelled with a default). -/
def faceCoords (face : List (List Nat)) (vnp : List Vec3) : List Vec3 :=
  face.flatten.map fun i => vnp.getD i (0, 0, 0)

/-- The `rings` array: the running totals of the ring lengths. -/
def ringBounds : List (List Nat) → Nat → List Nat
  | [], _ => []
  | r :: rs, total => (total + r.length) :: ringBounds rs (total + r.length)

/-- `np.reshape(-1, 3)` of a flat index list. -/
def chunk3 : List Nat → List (List Nat)
  | a :: b :: c :: rest => [a, b, c] :: chunk3 rest
  | _ => []

/-- `triangulate_face_mapbox_earcut` (geom_help.py lines 160–200): the fast
path returns a single 3-index ring verbatim with success; otherwise the
Newell normal is computed and a zero accumulation fails with no triangles
(the source puts the normal array in the first slot of that return; only the
flag is meaningful).  The projection and the `mapbox_earcut` call are the
opaque `ext`, whose flat triangulator-local output is mapped back through
`sf` and reshaped into triples. -/
def triangulate_face_mapbox_earcut (ext : List Vec3 → List Nat → List Nat)
    (face : List (List Nat)) (vnp : List Vec3) : List (List Nat) × Bool :=
  if face.length = 1 ∧ (face.headD []).length = 3 then (face, true)
  else
    let sf := face.flatten
    let nb := get_normal_newell (faceCoords face vnp)
    if nb.2 = false then ([], false)
    else
      let result := ext (faceCoords face vnp) (ringBounds face 0)
      (chunk3 (result.map fun k => sf.getD k 0), true)

/-- The per-ring duplicate removal of `triangulate_face_shewchuk` (geom_help
lines 67–73): keep the first occurrence of each index (the source rebuilds
`re` this way whenever the ring has any duplicate, which is exactly
first-seen-order deduplication). -/
def dedupRing (r : List Nat) : List Nat := firstSeenAux [] r

/-- `triangulate_face_shewchuk` (geom_help.py lines 64–157): rings are
deduplicated; a single ring of ≤ 3 indices returns directly (success iff
exactly 3); any ring with < 3 indices fails; then `n, b =
get_normal_newell(...)` is computed and `b` is never read again — the face
goes on to the 2D projection, hole-seed computation and the external
constrained `triangle.triangulate` call, modelled together as the opaque
`ext` (`none` standing for a raised exception or an output without a
`triangles` key, the two failure paths of lines 140–149).  Local indices are
mapped back through `sf`; an out-of-range index is the `except` path of
lines 151–156, returning failure. -/
def triangulate_face_shewchuk (ext : List Vec3 → List Nat → Option (List (List Nat)))
    (face0 : List (List Nat)) (vnp : List Vec3) : List (List Nat) × Bool :=
  let face := face0.map dedupRing
  if face.length = 1 ∧ (face.headD []).length ≤ 3 then
    if (face.headD []).length = 3 then (face, true) else (face, false)
  else if face.any fun r => r.length < 3 then ([], false)
  else
    let sf := face.flatten
    let _nb := get_normal_newell (faceCoords face vnp)
    match ext (faceCoords face vnp) (ringBounds face 0) with
    | none => (face, false)
    | some tris =>
      if tris.any (fun tr => tr.any fun k => sf.length ≤ k) then (tris, false)
      else (tris.map fun tr => tr.map fun k => sf.getD k 0, true)

/-- Three distinct collinear points: a collapsed triangle whose Newell
accumulation is exactly zero. -/
def degTriVnp : List Vec3 := [(0, 0, 0), (1, 0, 0), (2, 0, 0)]

/-- Four distinct collinear points: a collapsed quad whose Newell
accumulation is exactly zero. -/
def degQuadVnp : List Vec3 := [(0, 0, 0), (1, 0, 0), (2, 0, 0), (3, 0, 0)]

/-- A stand-in external earcut call (never reached in the statements below). -/
def earcutExtDemo : List Vec3 → List Nat → List Nat := fun _ _ => []

/-- A stand-in external Triangle call that fails. -/
def shewchukExtNone : List Vec3 → List Nat → Option (List (List Nat)) := fun _ _ => none

/-- A stand-in external Triangle call returning one triangle. -/
def shewchukExtTri : List Vec3 → List Nat → Option (List (List Nat)) :=
  fun _ _ => some [[0, 1, 2]]

/- ------------------------------------------------------------------ -/
/- Material propagation through `CityJSON.triangulate` (cityjson.py lines
   1861–2219), for a geometry carrying one material theme and no semantics or
   textures (`sflag = tflag = False`, so those branches are skipped; the
   source loops over the independent material themes — one theme is
   modelled).  `tf` stands for `geom_help.triangulate_face`. -/

/-- One material theme of a MultiSurface/CompositeSurface: a scalar `value`
or a per-face `values` array (entries may be null). -/
inductive MSMat where
  | value : Nat → MSMat
  | values : List (Option Nat) → MSMat
  deriving DecidableEq

/-- One material theme of a Solid: a scalar `value` or a per-shell-per-face
`values` array. -/
inductive SolidMat where
  | value : Nat → SolidMat
  | values : List (List (Option Nat)) → SolidMat
  deriving DecidableEq

/-- The face loop of the MultiSurface branch (cityjson.py lines 1905–1951):
face `i` bypasses `tf` when it is a single ring of exactly 3 indices; on
success each triangle `t` becomes the one-ring face `[t]` and — in the
`values` case — appends the entry `values[i]` to the accumulated material
list (`mlist`); a failed face contributes nothing.  Returns the new
boundaries and the accumulated values.  (An out-of-range `values[i]` would
raise in the source; modelled by a null default.) -/
def triMSGo (tf : List (List Nat) → List (List Nat) × Bool) (mat : MSMat) (i : Nat) :
    List (List (List Nat)) → List (List (List Nat)) × List (Option Nat)
  | [] => ([], [])
  | face :: rest =>
    let rb := if face.length = 1 ∧ (face.headD []).length = 3 then (face, true) else tf face
    let tail := triMSGo tf mat (i + 1) rest
    if rb.2 then
      (rb.1.map (fun t => [t]) ++ tail.1,
        (match mat with
          | .values vs => rb.1.map fun _ => vs.getD i none
          | .value _ => []) ++ tail.2)
    else tail

/-- The MultiSurface/CompositeSurface branch of `triangulate` restricted to
its material handling: triangulated boundaries plus the material theme, the
scalar `value` reassigned unchanged and the `values` array replaced by the
per-triangle accumulation. -/
def triangulateMSMat (tf : List (List Nat) → List (List Nat) × Bool)
    (boundaries : List (List (List Nat))) (mat : MSMat) :
    List (List (List Nat)) × MSMat :=
  let r := triMSGo tf mat 0 boundaries
  (r.1, match mat with
    | .value v => .value v
    | .values _ => .values r.2)

/-- The face loop of one shell of the Solid branch (cityjson.py lines
1990–2056).  The source reads the material entry as
`material[...]["values"][0][i]` — the *first* shell's entry, whatever the
current shell index `sidx` is — so the caller passes `values[0]` for every
shell. -/
def triSolidShellGo (tf : List (List Nat) → List (List Nat) × Bool)
    (isValues : Bool) (vals0 : List (Option Nat)) (i : Nat) :
    List (List (List Nat)) → List (List (List Nat)) × List (Option Nat)
  | [] => ([], [])
  | face :: rest =>
    let rb := if face.length = 1 ∧ (face.headD []).length = 3 then (face, true) else tf face
    let tail := triSolidShellGo tf isValues vals0 (i + 1) rest
    if rb.2 then
      (rb.1.map (fun t => [t]) ++ tail.1,
        (if isValues then rb.1.map fun _ => vals0.getD i none else []) ++ tail.2)
    else tail

/-- The shell loop of the Solid branch (cityjson.py lines 1985–2067): each
shell's triangles are collected; a shell's accumulated material list is
appended to `mlist` only when non-empty (`len(mlist1[j]) != 0`). -/
def triSolidGo (tf : List (List Nat) → List (List Nat) × Bool) (mat : SolidMat) :
    List (List (List (List Nat))) →
      List (List (List (List Nat))) × List (List (Option Nat))
  | [] => ([], [])
  | shell :: rest =>
    let s := triSolidShellGo tf
      (match mat with | .values _ => true | .value _ => false)
      (match mat with | .values vs => vs.getD 0 [] | .value _ => []) 0 shell
    let tail := triSolidGo tf mat rest
    (s.1 :: tail.1, (if s.2.isEmpty then tail.2 else s.2 :: tail.2))

/-- The Solid branch of `triangulate` restricted to its material handling. -/
def triangulateSolidMat (tf : List (List Nat) → List (List Nat) × Bool)
    (boundaries : List (List (List (List Nat)))) (mat : SolidMat) :
    List (List (List (List Nat))) × SolidMat :=
  let r := triSolidGo tf mat boundaries
  (r.1, match mat with
    | .value v => .value v
    | .values _ => .values r.2)

/-- A face triangulator that always fails (the statements below only use
fast-path faces, which never reach it). -/
def tfNever : List (List Nat) → List (List Nat) × Bool := fun f => (f, false)

/- Concrete datasets for the merge statements. -/

/-- Target dataset A for the merge statements: 5 quantized vertices (digits
1), all distinct and all referenced by its single MultiSurface face. -/
def mergeA : CityModel where
  cityObjects :=
    [("a", { geometry := [{ gtype := "MultiSurface", lod := "1",
                            boundaries := .node [.node [.node [.leaf (some 0), .leaf (some 1),
                              .leaf (some 2), .leaf (some 3), .leaf (some 4)]]] }] })]
  vertices := [(0, 0, 0), (10, 0, 0), (0, 10, 0), (0, 0, 10), (10, 10, 0)]
  transform := some { digits := 1, translate := (0, 0, 0) }

/-- Source dataset B for the merge statements: 3 quantized vertices (digits
1) and one triangle face `[0, 1, 2]`. -/
def mergeB : CityModel where
  cityObjects :=
    [("b", { geometry := [{ gtype := "MultiSurface", lod := "1",
                            boundaries := .node [.node [.node [.leaf (some 0), .leaf (some 1),
                              .leaf (some 2)]]] }] })]
  vertices := [(100, 100, 100), (200, 100, 100), (100, 200, 100)]
  transform := some { digits := 1, translate := (0, 0, 0) }

/-- A copy of `mergeB` quantized at 3 digits, for the mixed-precision merge. -/
def mergeB3 : CityModel :=
  { mergeB with transform := some { digits := 3, translate := (0, 0, 0) } }

/-- A dataset with no `transform` member (never quantized). -/
def noTransfDemo : CityModel where
  cityObjects := []
  vertices := []

/-- A quantized target dataset for the texture-error merges. -/
def texA : CityModel where
  cityObjects := [("a", { geometry := [] })]
  vertices := [(0, 0, 0)]
  transform := some { digits := 1, translate := (0, 0, 0) }

/-- A quantized source dataset whose CityObject `bad` carries a texture theme
`t` that is missing its `values` member. -/
def texBad : CityModel where
  cityObjects :=
    [("bad", { geometry := [{ gtype := "MultiSurface", lod := "1",
                              boundaries := .node [.node [.node [.leaf (some 0)]]],
                              texture := [("t", none)] }] })]
  vertices := [(5, 5, 5)]
  transform := some { digits := 1, translate := (0, 0, 0) }
  appearance := some { textures := some ["img.png"], verticesTexture := some [] }

/-- A quantized source dataset unrelated to `texBad`, later in the same merge
batch. -/
def texGood : CityModel where
  cityObjects := [("good", { geometry := [] })]
  vertices := [(7, 7, 7)]
  transform := some { digits := 1, translate := (0, 0, 0) }

/-- A tiny model exercising `remove_orphan_vertices`: three vertices of which
only vertex 1 is referenced. -/
def orphanDemo : CityModel where
  cityObjects :=
    [("a", { geometry := [{ gtype := "MultiSurface", lod := "1",
                            boundaries := .node [.node [.leaf (some 1)]] }] })]
  vertices := [(0, 0, 0), (1, 1, 1), (2, 2, 2)]

/- ================================================================== -/
/- Theorems.                                                           -/
/- ================================================================== -/

example : update_geom_indices 5 (.node [.leaf (some 0), .leaf (some 1), .leaf (some 2)]) =
    .node [.leaf (some 5), .leaf (some 6), .leaf (some 7)] := rfl

example : update_texture_indices 1 4 [.leaf (some 0), .leaf (some 2)] =
    [.leaf (some 1), .leaf (some 6)] := rfl

/-- Elements of a list at positions ≥ 1 of the texture visitor's enumeration:
scalar leaves all receive the uv-vertex offset `v`. -/
theorem update_texture_aux_pos (t v i : Nat) (l : List (Option Nat)) :
    update_texture_aux t v (i + 1) (l.map Nested.leaf) =
      l.map (fun x => Nested.leaf (x.map (· + v))) := by
  induction l generalizing i with
  | nil => simp [update_texture_aux]
  | cons o rest ih =>
    cases o with
    | none => simp [update_texture_aux, update_texture_one, ih]
    | some x => simp [update_texture_aux, update_texture_one, ih]

theorem mem_firstSeenAux {α : Type} [DecidableEq α] {y : α} (acc l : List α) :
    y ∈ firstSeenAux acc l ↔ y ∈ acc ∨ y ∈ l := by
  induction l generalizing acc with
  | nil => simp [firstSeenAux]
  | cons x xs ih =>
    simp only [firstSeenAux]
    split
    · rw [ih]
      constructor
      · rintro (h | h)
        · exact Or.inl h
        · exact Or.inr (List.mem_cons_of_mem _ h)
      · rintro (h | h)
        · exact Or.inl h
        · rcases List.mem_cons.mp h with h | h
          · exact Or.inl (h ▸ ‹x ∈ acc›)
          · exact Or.inr h
    · rw [ih]
      simp only [List.mem_append, List.mem_singleton, List.mem_cons]
      tauto

theorem nodup_firstSeenAux {α : Type} [DecidableEq α] (acc l : List α)
    (h : acc.Nodup) : (firstSeenAux acc l).Nodup := by
  induction l generalizing acc with
  | nil => exact h
  | cons x xs ih =>
    simp only [firstSeenAux]
    split
    · exact ih acc h
    · refine ih (acc ++ [x]) ?_
      simp only [List.nodup_append, List.nodup_cons, List.nodup_nil]
      exact ⟨h, by simp, by simpa [List.disjoint_singleton] using ‹x ∉ acc›⟩

theorem firstSeenAux_of_nodup {α : Type} [DecidableEq α] (acc l : List α)
    (h : (acc ++ l).Nodup) : firstSeenAux acc l = acc ++ l := by
  induction l generalizing acc with
  | nil => simp [firstSeenAux]
  | cons x xs ih =>
    have hx : x ∉ acc := by
      intro hmem
      exact (List.disjoint_of_nodup_append h) hmem (by simp)
    simp only [firstSeenAux, if_neg hx]
    rw [ih (acc ++ [x]) (by simpa using h)]
    simp

theorem firstIndexOf_lt_length {α : Type} [DecidableEq α] {a : α} {l : List α}
    (h : a ∈ l) : firstIndexOf a l < l.length := by
  induction l with
  | nil => cases h
  | cons x xs ih =>
    simp only [firstIndexOf]
    split
    · simp
    · have : a ∈ xs := by
        rcases List.mem_cons.mp h with h | h
        · exact absurd h.symm ‹¬x = a›
        · exact h
      simpa using Nat.succ_lt_succ (ih this)

theorem firstIndexOf_get {α : Type} [DecidableEq α] {l : List α} (hn : l.Nodup)
    {k : Nat} (hk : k < l.length) : firstIndexOf (l.get ⟨k, hk⟩) l = k := by
  induction l generalizing k with
  | nil => cases hk
  | cons x xs ih =>
    cases k with
    | zero => simp [firstIndexOf]
    | succ k =>
      have hx : x ∉ xs := (List.nodup_cons.mp hn).1
      have hk' : k < xs.length := Nat.lt_of_succ_lt_succ hk
      have hmem : xs.get ⟨k, hk'⟩ ∈ xs := List.get_mem _ _ _
      have hne : ¬x = xs.get ⟨k, hk'⟩ := fun h => hx (h ▸ hmem)
      simp only [List.get_cons_succ, firstIndexOf, if_neg hne]
      rw [ih (List.nodup_cons.mp hn).2 hk']

mutual
theorem nestedLeaves_mapLeaves {α β : Type} (f : α → β) : (a : Nested α) →
    nestedLeaves (mapLeaves f a) = (nestedLeaves a).map f
  | .leaf x => rfl
  | .node l => by
      simp only [mapLeaves, nestedLeaves, nestedLeavesList_mapLeavesList f l]

theorem nestedLeavesList_mapLeavesList {α β : Type} (f : α → β) : (l : List (Nested α)) →
    nestedLeavesList (mapLeavesList f l) = (nestedLeavesList l).map f
  | [] => rfl
  | c :: cs => by
      simp only [mapLeavesList, nestedLeavesList, List.map_append,
        nestedLeaves_mapLeaves f c, nestedLeavesList_mapLeavesList f cs]
end

theorem allBoundaryLeaves_mapGeomBoundaries (f : Option Nat → Option Nat)
    (cos : List (String × CityObject)) :
    allBoundaryLeaves (mapGeomBoundaries (mapLeaves f) cos) =
      (allBoundaryLeaves cos).map f := by
  induction cos with
  | nil => rfl
  | cons idco rest ih =>
    simp only [allBoundaryLeaves, mapGeomBoundaries, List.map_cons, List.flatMap_cons,
      List.map_append] at *
    rw [ih]
    congr 1
    induction idco.2.geometry with
    | nil => rfl
    | cons g gs ihg =>
      simp only [List.map_cons, List.flatMap_cons, List.map_append, ihg,
        nestedLeaves_mapLeaves]

/-- C5: for every texture leaf tuple (a list of scalar elements) offset during
merge, the first element — the texture index, when non-null — is increased by
the texture-table offset `t` and every remaining element (uv-vertex indices)
by the uv-vertex-pool offset `v`, null elements staying null; in particular
the leaf `[0, 2]` with texture-table offset 1 and uv-offset 4 becomes `[1, 6]`. -/
theorem texture_offset_two_phase (t v : Nat) (o : Option Nat) (rest : List (Option Nat)) :
    (update_texture_indices t v (Nested.leaf o :: rest.map Nested.leaf) =
        Nested.leaf (o.map (· + t)) :: rest.map (fun x => Nested.leaf (x.map (· + v)))) ∧
    update_texture_indices 1 4 [Nested.leaf (some 0), Nested.leaf (some 2)] =
      [Nested.leaf (some 1), Nested.leaf (some 6)] := by
  refine ⟨?_, rfl⟩
  cases o with
  | none => simp [update_texture_indices, update_texture_aux, update_texture_one,
      update_texture_aux_pos]
  | some x => simp [update_texture_indices, update_texture_aux, update_texture_one,
      update_texture_aux_pos]

/-- C2: for a model whose geometry leaves are all valid indices into the
vertex pool, after `remove_orphan_vertices` every index appearing in every
geometry is strictly below the new pool length, and every remaining pool
vertex is referenced by at least one geometry leaf. -/
theorem orphan_compaction_complete (s : CityModel)
    (_hval : ∀ o ∈ allBoundaryLeaves s.cityObjects,
      ∃ i, o = some i ∧ i < s.vertices.length) :
    (∀ o ∈ allBoundaryLeaves (remove_orphan_vertices s).1.cityObjects,
        ∃ i, o = some i ∧ i < (remove_orphan_vertices s).1.vertices.length) ∧
    (∀ k, k < (remove_orphan_vertices s).1.vertices.length →
        some k ∈ allBoundaryLeaves (remove_orphan_vertices s).1.cityObjects) := by
  clear _hval
  have hlen : (remove_orphan_vertices s).1.vertices.length =
      (firstSeenAux [] (allBoundaryLeaves s.cityObjects)).length := by
    simp [remove_orphan_vertices]
  have hleaves : allBoundaryLeaves (remove_orphan_vertices s).1.cityObjects =
      (allBoundaryLeaves s.cityObjects).map
        (fun o => some (firstIndexOf o (firstSeenAux [] (allBoundaryLeaves s.cityObjects)))) := by
    simp [remove_orphan_vertices, allBoundaryLeaves_mapGeomBoundaries]
  constructor
  · intro o ho
    rw [hleaves] at ho
    obtain ⟨o0, ho0, rfl⟩ := List.mem_map.mp ho
    refine ⟨_, rfl, ?_⟩
    rw [hlen]
    exact firstIndexOf_lt_length ((mem_firstSeenAux _ _).mpr (Or.inr ho0))
  · intro k hk
    rw [hlen] at hk
    set used := firstSeenAux [] (allBoundaryLeaves s.cityObjects) with hused
    have hmem : used.get ⟨k, hk⟩ ∈ used := List.get_mem _ _ _
    have hmemL : used.get ⟨k, hk⟩ ∈ allBoundaryLeaves s.cityObjects := by
      rcases (mem_firstSeenAux _ _).mp hmem with h | h
      · cases h
      · exact h
    rw [hleaves]
    have : some (firstIndexOf (used.get ⟨k, hk⟩) used) = some k := by
      rw [firstIndexOf_get (nodup_firstSeenAux [] _ List.nodup_nil) hk]
    exact this ▸ List.mem_map_of_mem _ hmemL

/-- Witness for C2: a concrete model with one referenced vertex out of three;
the validity hypothesis holds and the theorem applies. -/
theorem orphan_compaction_complete_witness :
    (∀ o ∈ allBoundaryLeaves orphanDemo.cityObjects,
      ∃ i, o = some i ∧ i < orphanDemo.vertices.length) ∧
    (∀ k, k < (remove_orphan_vertices orphanDemo).1.vertices.length →
        some k ∈ allBoundaryLeaves (remove_orphan_vertices orphanDemo).1.cityObjects) := by
  have h : ∀ o ∈ allBoundaryLeaves orphanDemo.cityObjects,
      ∃ i, o = some i ∧ i < orphanDemo.vertices.length := by
    intro o ho
    rw [show allBoundaryLeaves orphanDemo.cityObjects = [some 1] from rfl] at ho
    rw [List.mem_singleton] at ho
    exact ⟨1, ho, by simp [orphanDemo]⟩
  exact ⟨h, (orphan_compaction_complete orphanDemo h).2⟩

/-- C3: `remove_duplicate_vertices` is idempotent — a second run removes zero
vertices and leaves the pool unchanged. -/
theorem dedup_idempotent (s : CityModel) :
    (remove_duplicate_vertices (remove_duplicate_vertices s).1).2 = 0 ∧
    (remove_duplicate_vertices (remove_duplicate_vertices s).1).1.vertices =
      (remove_duplicate_vertices s).1.vertices := by
  have h1 : (remove_duplicate_vertices s).1.vertices = firstSeenAux [] s.vertices := rfl
  have hnd : (firstSeenAux [] s.vertices).Nodup := nodup_firstSeenAux [] _ List.nodup_nil
  have h2 : firstSeenAux [] (firstSeenAux [] s.vertices) = firstSeenAux [] s.vertices := by
    simpa using firstSeenAux_of_nodup [] (firstSeenAux [] s.vertices) (by simpa using hnd)
  constructor
  · simp [remove_duplicate_vertices, h1, h2]
  · simp [remove_duplicate_vertices, h1, h2]

example : (remove_duplicate_vertices
    { cityObjects := [], vertices := [(0, 0, 0), (0, 0, 0), (1, 0, 0)] }).2 = 1 := by
  decide

/-- Quantizing one coordinate and mapping it back through
`real = q * scale + translate` moves it by at most half a quantum. -/
theorem dequant_quant_abs_le (k : Nat) (b c : ℚ) :
    |((quantizeCoord k b c : ℚ) * (1 / (10 : ℚ) ^ k) + b) - c| ≤ 1 / (2 * (10 : ℚ) ^ k) := by
  have h10 : (0 : ℚ) < (10 : ℚ) ^ k := by positivity
  have hr : |((c - b) * (10 : ℚ) ^ k) - round ((c - b) * (10 : ℚ) ^ k)| ≤ 1 / 2 :=
    abs_sub_round _
  have heq : ((quantizeCoord k b c : ℚ) * (1 / (10 : ℚ) ^ k) + b) - c =
      -((((c - b) * (10 : ℚ) ^ k) - (round ((c - b) * (10 : ℚ) ^ k) : ℚ)) / (10 : ℚ) ^ k) := by
    simp only [quantizeCoord]
    field_simp
    ring
  rw [heq, abs_neg, abs_div, abs_of_pos h10]
  have h2 : (1 : ℚ) / (2 * (10 : ℚ) ^ k) = (1 / 2) / (10 : ℚ) ^ k := by
    field_simp
  rw [h2]
  exact (div_le_div_iff_of_pos_right h10).mpr hr

/-- `remove_duplicate_vertices` keeps every leaf a valid pool index. -/
theorem dedup_leaves_valid (s : CityModel)
    (hval : ∀ o ∈ allBoundaryLeaves s.cityObjects, ∃ i, o = some i ∧ i < s.vertices.length) :
    ∀ o ∈ allBoundaryLeaves (remove_duplicate_vertices s).1.cityObjects,
      ∃ i, o = some i ∧ i < (remove_duplicate_vertices s).1.vertices.length := by
  intro o ho
  have hleaves : allBoundaryLeaves (remove_duplicate_vertices s).1.cityObjects =
      (allBoundaryLeaves s.cityObjects).map
        (fun o => some (firstIndexOf (s.vertices.getD (o.getD 0) (0, 0, 0))
          (firstSeenAux [] s.vertices))) := by
    simp [remove_duplicate_vertices, allBoundaryLeaves_mapGeomBoundaries]
  rw [hleaves] at ho
  obtain ⟨o0, ho0, rfl⟩ := List.mem_map.mp ho
  obtain ⟨i, rfl, hi⟩ := hval o0 ho0
  refine ⟨_, rfl, ?_⟩
  have hv : s.vertices.getD ((some i).getD 0) (0, 0, 0) ∈ s.vertices := by
    simp only [Option.getD_some]
    rw [List.getD_eq_getElem s.vertices _ hi]
    exact List.getElem_mem _
  have hmem : s.vertices.getD ((some i).getD 0) (0, 0, 0) ∈ firstSeenAux [] s.vertices :=
    (mem_firstSeenAux _ _).mpr (Or.inr hv)
  simpa [remove_duplicate_vertices] using firstIndexOf_lt_length hmem

/-- The pool after `remove_duplicate_vertices` only holds original vertices. -/
theorem dedup_vertices_subset (s : CityModel) :
    ∀ w ∈ (remove_duplicate_vertices s).1.vertices, w ∈ s.vertices := by
  intro w hw
  have hw' : w ∈ firstSeenAux [] s.vertices := hw
  rcases (mem_firstSeenAux _ _).mp hw' with h | h
  · cases h
  · exact h

/-- The pool after `remove_orphan_vertices` only holds original vertices, when
the geometry leaves were valid indices. -/
theorem orphan_vertices_subset (s : CityModel)
    (hval : ∀ o ∈ allBoundaryLeaves s.cityObjects, ∃ i, o = some i ∧ i < s.vertices.length) :
    ∀ w ∈ (remove_orphan_vertices s).1.vertices, w ∈ s.vertices := by
  intro w hw
  have hw' : w ∈ (firstSeenAux [] (allBoundaryLeaves s.cityObjects)).map
      (fun o => o.elim ((0 : ℚ), (0 : ℚ), (0 : ℚ)) fun i => s.vertices.getD i (0, 0, 0)) := hw
  obtain ⟨o, hoGet, rfl⟩ := List.mem_map.mp hw'
  have homem : o ∈ allBoundaryLeaves s.cityObjects := by
    rcases (mem_firstSeenAux _ _).mp hoGet with h | h
    · cases h
    · exact h
  obtain ⟨i, rfl, hi⟩ := hval o homem
  simp only [Option.elim_some]
  rw [List.getD_eq_getElem s.vertices _ hi]
  exact List.getElem_mem _

/-- C7: for a model with no transform present and any precision `k`, each
coordinate of each vertex surviving `compress` (quantize, then dedup and
orphan cleanup) followed by `decompress` differs from the corresponding
original coordinate by at most `0.5 * 10^-k`. -/
theorem quantize_dequantize_roundtrip (s : CityModel) (k : Nat)
    (ht : s.transform = none)
    (hval : ∀ o ∈ allBoundaryLeaves s.cityObjects, ∃ i, o = some i ∧ i < s.vertices.length) :
    ∀ v' ∈ (decompress (compress s k none).1).1.vertices,
      ∃ v ∈ s.vertices,
        |v'.1 - v.1| ≤ 1 / (2 * (10 : ℚ) ^ k) ∧
        |v'.2.1 - v.2.1| ≤ 1 / (2 * (10 : ℚ) ^ k) ∧
        |v'.2.2 - v.2.2| ≤ 1 / (2 * (10 : ℚ) ^ k) := by
  intro v' hv'
  set bbox := bboxMin s.vertices with hbbox
  set s1 : CityModel := { s with
    vertices := s.vertices.map (quantizeVec k bbox),
    transform := some { digits := k, translate := bbox } } with hs1
  have hcomp : (compress s k none).1 =
      (remove_orphan_vertices (remove_duplicate_vertices s1).1).1 := by
    simp [compress, ht]
  have htr3 : (compress s k none).1.transform = some { digits := k, translate := bbox } := by
    rw [hcomp]; rfl
  have hdec : (decompress (compress s k none).1).1.vertices =
      (compress s k none).1.vertices.map fun v =>
        (v.1 * transformScale { digits := k, translate := bbox } + bbox.1,
          v.2.1 * transformScale { digits := k, translate := bbox } + bbox.2.1,
          v.2.2 * transformScale { digits := k, translate := bbox } + bbox.2.2) := by
    simp [decompress, htr3]
  rw [hdec] at hv'
  obtain ⟨w, hw, rfl⟩ := List.mem_map.mp hv'
  -- trace `w` back through the cleanup passes to a quantized original vertex
  have hval1 : ∀ o ∈ allBoundaryLeaves s1.cityObjects,
      ∃ i, o = some i ∧ i < s1.vertices.length := by
    intro o ho
    obtain ⟨i, rfl, hi⟩ := hval o ho
    exact ⟨i, rfl, by simpa [hs1] using hi⟩
  have hw2 : w ∈ (remove_duplicate_vertices s1).1.vertices := by
    rw [hcomp] at hw
    exact orphan_vertices_subset _ (dedup_leaves_valid s1 hval1) w hw
  have hw1 : w ∈ s1.vertices := dedup_vertices_subset s1 w hw2
  obtain ⟨v, hvmem, rfl⟩ := List.mem_map.mp hw1
  refine ⟨v, hvmem, ?_, ?_, ?_⟩
  · simpa [quantizeVec, transformScale] using dequant_quant_abs_le k bbox.1 v.1
  · simpa [quantizeVec, transformScale] using dequant_quant_abs_le k bbox.2.1 v.2.1
  · simpa [quantizeVec, transformScale] using dequant_quant_abs_le k bbox.2.2 v.2.2

/-- Witness for C7: the three-vertex model, quantized at 2 digits. -/
theorem quantize_dequantize_roundtrip_witness :
    orphanDemo.transform = none ∧
    ∀ v' ∈ (decompress (compress orphanDemo 2 none).1).1.vertices,
      ∃ v ∈ orphanDemo.vertices,
        |v'.1 - v.1| ≤ 1 / (2 * (10 : ℚ) ^ 2) ∧
        |v'.2.1 - v.2.1| ≤ 1 / (2 * (10 : ℚ) ^ 2) ∧
        |v'.2.2 - v.2.2| ≤ 1 / (2 * (10 : ℚ) ^ 2) := by
  refine ⟨rfl, quantize_dequantize_roundtrip orphanDemo 2 rfl ?_⟩
  intro o ho
  rw [show allBoundaryLeaves orphanDemo.cityObjects = [some 1] from rfl] at ho
  rw [List.mem_singleton] at ho
  exact ⟨1, ho, by simp [orphanDemo]⟩

mutual
theorem nestedLeaves_update_geom_indices (off : Nat) : (a : GArr) →
    nestedLeaves (update_geom_indices off a) = (nestedLeaves a).map (Option.map (· + off))
  | .leaf none => rfl
  | .leaf (some _) => rfl
  | .node l => by
      simp only [update_geom_indices, nestedLeaves,
        nestedLeavesList_update_geom_indices_list off l]

theorem nestedLeavesList_update_geom_indices_list (off : Nat) : (l : List GArr) →
    nestedLeavesList (update_geom_indices_list off l) =
      (nestedLeavesList l).map (Option.map (· + off))
  | [] => rfl
  | c :: cs => by
      simp only [update_geom_indices_list, nestedLeavesList, List.map_append,
        nestedLeaves_update_geom_indices off c,
        nestedLeavesList_update_geom_indices_list off cs]
end

theorem decompress_cityObjects (s : CityModel) :
    (decompress s).1.cityObjects = s.cityObjects := by
  cases h : s.transform <;> simp [decompress, h]

theorem decompress_transform_some (s : CityModel) (t : Transform)
    (h : s.transform = some t) : (decompress s).1.transform = none := by
  simp [decompress, h]

theorem allBoundariesOf_cons (idco : String × CityObject) (rest : List (String × CityObject)) :
    allBoundariesOf (idco :: rest) =
      idco.2.geometry.map (fun g => g.boundaries) ++ allBoundariesOf rest := by
  simp [allBoundariesOf]

theorem allBoundariesOf_append (l1 l2 : List (String × CityObject)) :
    allBoundariesOf (l1 ++ l2) = allBoundariesOf l1 ++ allBoundariesOf l2 := by
  simp [allBoundariesOf]

theorem lookupCO_mem {cos : List (String × CityObject)} {theid : String} {co : CityObject}
    (h : lookupCO cos theid = some co) : (theid, co) ∈ cos := by
  induction cos with
  | nil => cases h
  | cons kv rest ih =>
    rcases kv with ⟨k, v⟩
    rw [lookupCO] at h
    split at h
    · cases h
      exact (‹k = theid› ▸ List.mem_cons_self _ _)
    · exact List.mem_cons_of_mem _ (ih h)

theorem mem_boundaries_of_lookupCO {cos : List (String × CityObject)} {theid : String}
    {co : CityObject} (h : lookupCO cos theid = some co) {b : GArr}
    (hb : b ∈ co.geometry.map (fun g => g.boundaries)) : b ∈ allBoundariesOf cos := by
  exact List.mem_flatMap.mpr ⟨(theid, co), lookupCO_mem h, hb⟩

theorem mem_allBoundariesOf_updateCO {cos : List (String × CityObject)} {theid : String}
    {co' : CityObject} {b : GArr}
    (h : b ∈ allBoundariesOf (updateCO cos theid co')) :
    b ∈ allBoundariesOf cos ∨ b ∈ co'.geometry.map (fun g => g.boundaries) := by
  induction cos with
  | nil => exact Or.inl h
  | cons kv rest ih =>
    rcases kv with ⟨k, v⟩
    rw [updateCO] at h
    split at h
    · rw [allBoundariesOf_cons] at h
      rcases List.mem_append.mp h with h1 | h1
      · exact Or.inr h1
      · exact Or.inl (by rw [allBoundariesOf_cons]; exact List.mem_append_right _ h1)
    · rw [allBoundariesOf_cons] at h
      rcases List.mem_append.mp h with h1 | h1
      · exact Or.inl (by rw [allBoundariesOf_cons]; exact List.mem_append_left _ h1)
      · rcases ih h1 with h2 | h2
        · exact Or.inl (by rw [allBoundariesOf_cons]; exact List.mem_append_right _ h2)
        · exact Or.inr h2

theorem allBoundariesOf_updateCO_eq {cos : List (String × CityObject)} {theid : String}
    {co co' : CityObject} (h : lookupCO cos theid = some co)
    (hb : co'.geometry.map (fun g => g.boundaries) = co.geometry.map (fun g => g.boundaries)) :
    allBoundariesOf (updateCO cos theid co') = allBoundariesOf cos := by
  induction cos with
  | nil => cases h
  | cons kv rest ih =>
    rcases kv with ⟨k, v⟩
    rw [lookupCO] at h
    rw [updateCO]
    split
    · rw [if_pos ‹k = theid›] at h
      cases h
      rw [allBoundariesOf_cons, allBoundariesOf_cons, hb]
    · rw [if_neg ‹¬k = theid›] at h
      rw [allBoundariesOf_cons, allBoundariesOf_cons, ih h]

theorem mergeGeomsByLod_cons (off : Nat) (tgt : List Geom) (g : Geom) (gs : List Geom) :
    mergeGeomsByLod off tgt (g :: gs) =
      mergeGeomsByLod off
        (if tgt.any (fun g2 => g2.lod = g.lod) then tgt
          else tgt ++ [offsetGeomBoundaries off g]) gs := rfl

theorem mem_mergeGeomsByLod {off : Nat} {src : List Geom} : ∀ {tgt : List Geom} {b : GArr},
    b ∈ (mergeGeomsByLod off tgt src).map (fun g => g.boundaries) →
    b ∈ tgt.map (fun g => g.boundaries) ∨
      ∃ g ∈ src, b = update_geom_indices off g.boundaries := by
  induction src with
  | nil => intro tgt b h; exact Or.inl h
  | cons g gs ih =>
    intro tgt b h
    rw [mergeGeomsByLod_cons] at h
    rcases ih h with h' | ⟨g0, hg0, rfl⟩
    · by_cases hc : tgt.any (fun g2 => g2.lod = g.lod)
      · rw [if_pos hc] at h'
        exact Or.inl h'
      · rw [if_neg hc, List.map_append] at h'
        rcases List.mem_append.mp h' with h1 | h1
        · exact Or.inl h1
        · rcases List.mem_singleton.mp (by simpa using h1) with h2
          exact Or.inr ⟨g, List.mem_cons_self _ _, h2⟩
    · exact Or.inr ⟨g0, List.mem_cons_of_mem _ hg0, rfl⟩

theorem spliceCityObjects_cons (off : Nat) (tgt : List (String × CityObject))
    (idco : String × CityObject) (rest : List (String × CityObject)) :
    spliceCityObjects off tgt (idco :: rest) =
      spliceCityObjects off
        (match lookupCO tgt idco.1 with
         | some co0 =>
           updateCO tgt idco.1 { co0 with
             attributes := mergeAttributes co0.attributes idco.2.attributes,
             geometry := mergeGeomsByLod off co0.geometry idco.2.geometry }
         | none =>
           tgt ++ [(idco.1, { idco.2 with
             geometry := idco.2.geometry.map (offsetGeomBoundaries off) })]) rest := rfl

theorem mem_allBoundariesOf_splice {off : Nat} {src : List (String × CityObject)} :
    ∀ {tgt : List (String × CityObject)} {b : GArr},
    b ∈ allBoundariesOf (spliceCityObjects off tgt src) →
    b ∈ allBoundariesOf tgt ∨
      ∃ b0 ∈ allBoundariesOf src, b = update_geom_indices off b0 := by
  induction src with
  | nil => intro tgt b h; exact Or.inl h
  | cons idco rest ih =>
    intro tgt b h
    rw [spliceCityObjects_cons] at h
    rcases ih h with h' | ⟨b0, hb0, rfl⟩
    · rcases hl : lookupCO tgt idco.1 with _ | co0
      · rw [hl] at h'
        rw [allBoundariesOf_append] at h'
        rcases List.mem_append.mp h' with h1 | h1
        · exact Or.inl h1
        · rw [allBoundariesOf_cons] at h1
          rcases List.mem_append.mp h1 with h2 | h2
          · simp only [List.map_map] at h2
            rcases List.mem_map.mp h2 with ⟨g, hg, rfl⟩
            refine Or.inr ⟨g.boundaries, ?_, rfl⟩
            rw [allBoundariesOf_cons]
            exact List.mem_append_left _ (List.mem_map_of_mem _ hg)
          · cases h2
      · rw [hl] at h'
        rcases mem_allBoundariesOf_updateCO h' with h1 | h1
        · exact Or.inl h1
        · rcases mem_mergeGeomsByLod h1 with h2 | ⟨g, hg, rfl⟩
          · exact Or.inl (mem_boundaries_of_lookupCO hl h2)
          · refine Or.inr ⟨g.boundaries, ?_, rfl⟩
            rw [allBoundariesOf_cons]
            exact List.mem_append_left _ (List.mem_map_of_mem _ hg)
    · refine Or.inr ⟨b0, ?_, rfl⟩
      rw [allBoundariesOf_cons]
      exact List.mem_append_right _ hb0

theorem allBoundariesOf_updateGeomsOfIds (f : Geom → Geom)
    (hf : ∀ g, (f g).boundaries = g.boundaries) :
    ∀ (src : List (String × CityObject)) (acc : List (String × CityObject)),
    allBoundariesOf (updateGeomsOfIds f acc src) = allBoundariesOf acc := by
  intro src
  induction src with
  | nil => intro acc; rfl
  | cons idco rest ih =>
    intro acc
    rw [updateGeomsOfIds]
    rcases hl : lookupCO acc idco.1 with _ | co
    · exact ih acc
    · rw [ih]
      refine allBoundariesOf_updateCO_eq hl ?_
      simp only [List.map_map]
      exact List.map_congr_left fun g _ => hf g

theorem mergeTemplatesPhase_vertices (s cmd : CityModel) :
    (mergeTemplatesPhase s cmd).vertices = s.vertices := by
  cases h : cmd.geometryTemplates <;> simp [mergeTemplatesPhase, h]

theorem mergeTemplatesPhase_transform (s cmd : CityModel) :
    (mergeTemplatesPhase s cmd).transform = s.transform := by
  cases h : cmd.geometryTemplates <;> simp [mergeTemplatesPhase, h]

theorem mergeTemplatesPhase_boundaries (s cmd : CityModel) :
    allBoundariesOf (mergeTemplatesPhase s cmd).cityObjects =
      allBoundariesOf s.cityObjects := by
  cases h : cmd.geometryTemplates with
  | none => simp [mergeTemplatesPhase, h]
  | some gt =>
    simp only [mergeTemplatesPhase, h]
    exact allBoundariesOf_updateGeomsOfIds _ (fun g => by split <;> rfl) _ _

theorem mergeMaterialsPhase_vertices (s cmd : CityModel) :
    (mergeMaterialsPhase s cmd).vertices = s.vertices := by
  rcases h : cmd.appearance with _ | app
  · simp [mergeMaterialsPhase, h]
  · rcases h2 : app.materials with _ | mats <;> simp [mergeMaterialsPhase, h, h2]

theorem mergeMaterialsPhase_transform (s cmd : CityModel) :
    (mergeMaterialsPhase s cmd).transform = s.transform := by
  rcases h : cmd.appearance with _ | app
  · simp [mergeMaterialsPhase, h]
  · rcases h2 : app.materials with _ | mats <;> simp [mergeMaterialsPhase, h, h2]

theorem mergeMaterialsPhase_boundaries (s cmd : CityModel) :
    allBoundariesOf (mergeMaterialsPhase s cmd).cityObjects =
      allBoundariesOf s.cityObjects := by
  rcases h : cmd.appearance with _ | app
  · simp [mergeMaterialsPhase, h]
  · rcases h2 : app.materials with _ | mats
    · simp [mergeMaterialsPhase, h, h2]
    · simp only [mergeMaterialsPhase, h, h2]
      exact allBoundariesOf_updateGeomsOfIds
        (fun g => { g with material := g.material.map fun tm =>
          (tm.1, offsetMatBinding (match s.appearance with
            | some sapp => match sapp.materials with
              | some smats => smats.length
              | none => 0
            | none => 0) tm.2) })
        (fun g => rfl) _ _

theorem updateTexturesGeomList_boundaries (t v : Nat) (gs : List Geom) :
    ((updateTexturesGeomList t v gs).1).map (fun g => g.boundaries) =
      gs.map (fun g => g.boundaries) := by
  induction gs with
  | nil => rfl
  | cons g rest ih =>
    rw [updateTexturesGeomList]
    rcases he : (updateTexturesThemes t v g.texture).2 with _ | m
    · simp only [he, List.map_cons, ih]
    · simp only [he, List.map_cons]

theorem mergeTexUpdateIds_boundaries (t v : Nat) :
    ∀ (src acc : List (String × CityObject)),
    allBoundariesOf (mergeTexUpdateIds t v acc src).1 = allBoundariesOf acc := by
  intro src
  induction src with
  | nil => intro acc; rfl
  | cons idco rest ih =>
    intro acc
    rw [mergeTexUpdateIds]
    rcases hl : lookupCO acc idco.1 with _ | co
    · exact ih acc
    · rcases he : (updateTexturesGeomList t v co.geometry).2 with _ | m
      · simp only [he]
        rw [ih]
        exact allBoundariesOf_updateCO_eq hl (updateTexturesGeomList_boundaries t v _)
      · simp only [he]
        exact allBoundariesOf_updateCO_eq hl (updateTexturesGeomList_boundaries t v _)

theorem mergeTexturesPhase_vertices (s cmd : CityModel) :
    (mergeTexturesPhase s cmd).1.vertices = s.vertices := by
  rcases h : cmd.appearance with _ | app
  · simp [mergeTexturesPhase, h]
  · rcases h2 : app.textures with _ | texs <;> simp [mergeTexturesPhase, h, h2]

theorem mergeTexturesPhase_transform (s cmd : CityModel) :
    (mergeTexturesPhase s cmd).1.transform = s.transform := by
  rcases h : cmd.appearance with _ | app
  · simp [mergeTexturesPhase, h]
  · rcases h2 : app.textures with _ | texs <;> simp [mergeTexturesPhase, h, h2]

theorem mergeTexturesPhase_boundaries (s cmd : CityModel) :
    allBoundariesOf (mergeTexturesPhase s cmd).1.cityObjects =
      allBoundariesOf s.cityObjects := by
  rcases h : cmd.appearance with _ | app
  · simp [mergeTexturesPhase, h]
  · rcases h2 : app.textures with _ | texs
    · simp [mergeTexturesPhase, h, h2]
    · simp only [mergeTexturesPhase, h, h2]
      exact mergeTexUpdateIds_boundaries _ _ _ _

theorem mergeOneCM_some (self : CityModel) (digits : Nat) (cm : CityModel) (tc : Transform)
    (htc : cm.transform = some tc) :
    mergeOneCM self digits cm =
      ((mergeTexturesPhase
          (mergeMaterialsPhase
            (mergeTemplatesPhase
              { self with
                  vertices := self.vertices ++ (decompress cm).1.vertices,
                  cityObjects := spliceCityObjects self.vertices.length
                    self.cityObjects (decompress cm).1.cityObjects }
              (decompress cm).1)
            (decompress cm).1)
          (decompress cm).1).1,
        (if tc.digits > digits then tc.digits else digits),
        (mergeTexturesPhase
          (mergeMaterialsPhase
            (mergeTemplatesPhase
              { self with
                  vertices := self.vertices ++ (decompress cm).1.vertices,
                  cityObjects := spliceCityObjects self.vertices.length
                    self.cityObjects (decompress cm).1.cityObjects }
              (decompress cm).1)
            (decompress cm).1)
          (decompress cm).1).2) := by
  simp [mergeOneCM, htc]

theorem mergeOneCM_vertices (self : CityModel) (digits : Nat) (cm : CityModel)
    (tc : Transform) (htc : cm.transform = some tc) :
    (mergeOneCM self digits cm).1.vertices =
      self.vertices ++ (decompress cm).1.vertices := by
  rw [mergeOneCM_some self digits cm tc htc]
  rw [mergeTexturesPhase_vertices, mergeMaterialsPhase_vertices, mergeTemplatesPhase_vertices]

theorem mergeOneCM_transform (self : CityModel) (digits : Nat) (cm : CityModel) :
    (mergeOneCM self digits cm).1.transform = self.transform := by
  rcases htc : cm.transform with _ | tc
  · simp [mergeOneCM, htc]
  · rw [mergeOneCM_some self digits cm tc htc]
    rw [mergeTexturesPhase_transform, mergeMaterialsPhase_transform,
      mergeTemplatesPhase_transform]

theorem mergeOneCM_digits (self : CityModel) (digits : Nat) (cm : CityModel)
    (tc : Transform) (htc : cm.transform = some tc) :
    (mergeOneCM self digits cm).2.1 = max digits tc.digits := by
  rw [mergeOneCM_some self digits cm tc htc]
  by_cases hc : tc.digits > digits
  · simp only [if_pos hc]
    omega
  · simp only [if_neg hc]
    omega

theorem mergeOneCM_boundaries (self : CityModel) (digits : Nat) (cm : CityModel)
    (tc : Transform) (htc : cm.transform = some tc) :
    ∀ b ∈ allBoundariesOf (mergeOneCM self digits cm).1.cityObjects,
      b ∈ allBoundariesOf self.cityObjects ∨
      ∃ b0 ∈ allBoundariesOf cm.cityObjects,
        b = update_geom_indices self.vertices.length b0 := by
  intro b hb
  rw [mergeOneCM_some self digits cm tc htc] at hb
  simp only [] at hb
  rw [mergeTexturesPhase_boundaries, mergeMaterialsPhase_boundaries,
    mergeTemplatesPhase_boundaries] at hb
  have hb' : b ∈ allBoundariesOf
      (spliceCityObjects self.vertices.length self.cityObjects (decompress cm).1.cityObjects) := hb
  rcases mem_allBoundariesOf_splice hb' with h | ⟨b0, hb0, rfl⟩
  · exact Or.inl h
  · rw [decompress_cityObjects] at hb0
    exact Or.inr ⟨b0, hb0, rfl⟩

theorem compress_transform_of_none (s : CityModel) (d : Nat) (h : s.transform = none) :
    (compress s d none).1.transform =
      some { digits := d, translate := bboxMin s.vertices } := by
  simp [compress, h, remove_duplicate_vertices, remove_orphan_vertices]

theorem mergeLoop_single (s : CityModel) (d : Nat) (cm : CityModel) :
    mergeLoop s d [cm] = mergeOneCM s d cm := by
  rcases he : (mergeOneCM s d cm).2.2 with _ | e <;>
    simp only [mergeLoop, he] <;> exact (Prod.ext rfl (Prod.ext rfl he.symm))

/-- C1: splicing a source dataset B into the running target uses the vertex
offset `len(target.vertices)` taken before appending B's vertices; the merged
pool is the concatenation; every geometry in the result either kept a
boundary array of the target or is a copy from B with every leaf shifted by
the offset (`update_geom_indices` adds the offset to every non-null leaf);
and concretely merging B (3 vertices, one triangle face `[0,1,2]`) into A
(5 vertices, all distinct, all referenced) yields face `[5,6,7]` and a pool
of 8 vertices. -/
theorem merge_vertex_offset_correct :
    (∀ (self : CityModel) (digits : Nat) (cm : CityModel) (tc : Transform),
      cm.transform = some tc →
      (mergeOneCM self digits cm).1.vertices =
        self.vertices ++ (decompress cm).1.vertices ∧
      ∀ b ∈ allBoundariesOf (mergeOneCM self digits cm).1.cityObjects,
        b ∈ allBoundariesOf self.cityObjects ∨
        ∃ b0 ∈ allBoundariesOf cm.cityObjects,
          b = update_geom_indices self.vertices.length b0) ∧
    (∀ (off : Nat) (a : GArr),
      nestedLeaves (update_geom_indices off a) =
        (nestedLeaves a).map (Option.map (· + off))) ∧
    ((merge mergeA [mergeB]).2 = none ∧
      (merge mergeA [mergeB]).1.vertices.length = 8 ∧
      (lookupCO (merge mergeA [mergeB]).1.cityObjects "b").map
        (fun co => co.geometry.map fun g => nestedLeaves g.boundaries) =
        some [[some 5, some 6, some 7]]) := by
  refine ⟨?_, nestedLeaves_update_geom_indices, by decide, by decide, by decide⟩
  intro self digits cm tc htc
  exact ⟨mergeOneCM_vertices self digits cm tc htc,
    mergeOneCM_boundaries self digits cm tc htc⟩

/-- Witness for C1: the concrete A and B datasets. -/
theorem merge_vertex_offset_correct_witness :
    mergeB.transform = some { digits := 1, translate := (0, 0, 0) } ∧
    (mergeOneCM mergeA 1 mergeB).1.vertices =
      mergeA.vertices ++ (decompress mergeB).1.vertices :=
  ⟨rfl, (merge_vertex_offset_correct.1 mergeA 1 mergeB
    { digits := 1, translate := (0, 0, 0) } rfl).1⟩

/-- C4 counterexample: merging a digits-1 target with a digits-3 source
re-quantizes the combined dataset at 3 significant digits — the *finer*
precision — whereas the claim demands the coarser of the two (1). -/
theorem merge_precision_counterexample :
    mergeA.transform.map Transform.digits = some 1 ∧
    mergeB3.transform.map Transform.digits = some 3 ∧
    (merge mergeA [mergeB3]).2 = none ∧
    (merge mergeA [mergeB3]).1.transform.map Transform.digits = some 3 ∧
    (merge mergeA [mergeB3]).1.transform.map Transform.digits ≠ some (min 1 3) :=
  ⟨rfl, rfl, by decide, by decide, by decide⟩

/-- C4 (amended): when datasets quantized at different precisions are merged,
both are decompressed before splicing (the spliced pool is the concatenation
of the two decompressed pools) and the combined dataset is re-quantized
afterward at the *finer* of the two precisions (the larger
important-digits count). -/
theorem merge_decompress_and_requantize_finer (A B : CityModel) (tA tB : Transform)
    (hA : A.transform = some tA) (hB : B.transform = some tB)
    (hok : (merge A [B]).2 = none) :
    (mergeLoop (decompress A).1 tA.digits [B]).1.vertices =
      (decompress A).1.vertices ++ (decompress B).1.vertices ∧
    (merge A [B]).1.transform.map Transform.digits =
      some (max tA.digits tB.digits) := by
  have hsingle : mergeLoop (decompress A).1 tA.digits [B] =
      mergeOneCM (decompress A).1 tA.digits B := mergeLoop_single _ _ _
  constructor
  · rw [hsingle]
    exact mergeOneCM_vertices _ _ _ tB hB
  · rcases he : (mergeOneCM (decompress A).1 tA.digits B).2.2 with _ | e
    · have hmerge : (merge A [B]).1 =
          (compress
            (remove_orphan_vertices
              (remove_duplicate_vertices
                (mergeOneCM (decompress A).1 tA.digits B).1).1).1
            (mergeOneCM (decompress A).1 tA.digits B).2.1 none).1 := by
        simp [merge, hA, hsingle, he]
      rw [hmerge]
      have htr : (remove_orphan_vertices
          (remove_duplicate_vertices
            (mergeOneCM (decompress A).1 tA.digits B).1).1).1.transform = none := by
        show (mergeOneCM (decompress A).1 tA.digits B).1.transform = none
        rw [mergeOneCM_transform]
        exact decompress_transform_some A tA hA
      rw [compress_transform_of_none _ _ htr]
      rw [Option.map_some']
      rw [mergeOneCM_digits _ _ _ tB hB]
    · exfalso
      have hcontra : (merge A [B]).2 = some e := by
        simp [merge, hA, hsingle, he]
      rw [hok] at hcontra
      cases hcontra

/-- Witness for the amended C4: digits-1 A with digits-3 B. -/
theorem merge_decompress_and_requantize_finer_witness :
    mergeA.transform = some { digits := 1, translate := (0, 0, 0) } ∧
    mergeB3.transform = some { digits := 3, translate := (0, 0, 0) } ∧
    (merge mergeA [mergeB3]).2 = none ∧
    (merge mergeA [mergeB3]).1.transform.map Transform.digits = some (max 1 3) :=
  ⟨rfl, rfl, by decide,
    (merge_decompress_and_requantize_finer mergeA mergeB3
      { digits := 1, translate := (0, 0, 0) } { digits := 3, translate := (0, 0, 0) }
      rfl rfl (by decide)).2⟩

/-- C6 counterexample: a texture binding without `values` in dataset
`texBad` aborts the whole merge — the unrelated dataset `texGood` in the same
batch is never merged (its CityObject is absent from the result), the final
re-quantization never runs (the target is left with no transform), and the
error propagates out of `merge` — contradicting the claim that only that
CityObject's merge fails while the operation as a whole continues. -/
theorem texture_error_aborts_merge_counterexample :
    (merge texA [texBad, texGood]).2 =
      some (MergeErr.missingTextureValues "bad" "t") ∧
    (lookupCO (merge texA [texBad, texGood]).1.cityObjects "bad").isSome = true ∧
    (lookupCO (merge texA [texBad, texGood]).1.cityObjects "good").isSome = false ∧
    (merge texA [texBad, texGood]).1.transform = none :=
  ⟨by decide, by decide, by decide, rfl⟩

/-- C6 (amended): a texture binding missing its `values` member raises a
`KeyError` that aborts the merge as a whole: `merge` reports the error, the
remaining source datasets are not merged, and the final dedup/orphan/
re-quantization steps are skipped, leaving the target decompressed (no
transform) — the CityObjects of the failing dataset having already been
spliced before the error. -/
theorem texture_error_aborts_merge (tgt cm : CityModel) (rest : List CityModel)
    (t0 : Transform) (e : MergeErr) (h0 : tgt.transform = some t0)
    (he : (mergeOneCM (decompress tgt).1 t0.digits cm).2.2 = some e) :
    (merge tgt (cm :: rest)).2 = some e ∧
    (merge tgt (cm :: rest)).1.transform = none := by
  have hmerge : merge tgt (cm :: rest) =
      ((mergeOneCM (decompress tgt).1 t0.digits cm).1, some e) := by
    simp [merge, mergeLoop, h0, he]
  rw [hmerge]
  refine ⟨rfl, ?_⟩
  show (mergeOneCM (decompress tgt).1 t0.digits cm).1.transform = none
  rw [mergeOneCM_transform]
  exact decompress_transform_some tgt t0 h0

/-- Witness for the amended C6: the concrete failing merge. -/
theorem texture_error_aborts_merge_witness :
    (merge texA [texBad]).2 = some (MergeErr.missingTextureValues "bad" "t") ∧
    (merge texA [texBad]).1.transform = none :=
  texture_error_aborts_merge texA texBad [] { digits := 1, translate := (0, 0, 0) }
    (MergeErr.missingTextureValues "bad" "t") rfl (by decide)

/-- C10: merge presupposes quantized inputs — a target with no `transform`
member makes `merge` raise a `KeyError` before any splicing, leaving the
target unchanged, and a source with no `transform` makes `merge` raise before
splicing that source (the state is the merely decompressed target). -/
theorem merge_requires_transform :
    (∀ (s : CityModel) (ls : List CityModel), s.transform = none →
      merge s ls = (s, some MergeErr.noTransformTarget)) ∧
    (∀ (s cm : CityModel) (t : Transform) (ls : List CityModel),
      s.transform = some t → cm.transform = none →
      merge s (cm :: ls) = ((decompress s).1, some MergeErr.noTransformSource)) := by
  constructor
  · intro s ls h
    simp [merge, h]
  · intro s cm t ls hs hcm
    simp [merge, hs, mergeLoop, mergeOneCM, hcm]

/-- Witness for C10: an unquantized target, and an unquantized source behind a
quantized target. -/
theorem merge_requires_transform_witness :
    noTransfDemo.transform = none ∧
    merge noTransfDemo [] = (noTransfDemo, some MergeErr.noTransformTarget) ∧
    mergeA.transform = some { digits := 1, translate := (0, 0, 0) } ∧
    noTransfDemo.transform = none ∧
    merge mergeA [noTransfDemo] = ((decompress mergeA).1, some MergeErr.noTransformSource) :=
  ⟨rfl, merge_requires_transform.1 noTransfDemo [] rfl, rfl, rfl,
    merge_requires_transform.2 mergeA noTransfDemo { digits := 1, translate := (0, 0, 0) } []
      rfl rfl⟩

/-- C8 counterexample: the collapsed triangle `[[0,1,2]]` over three
collinear points has an exactly-zero Newell accumulation, yet both strategies
return it as a successful triangle through their fast paths, never reaching
the zero-normal check — so a zero Newell normal does not imply failure. -/
theorem zero_normal_counterexample :
    newellAccum (faceCoords [[0, 1, 2]] degTriVnp) = (0, 0, 0) ∧
    triangulate_face_mapbox_earcut earcutExtDemo [[0, 1, 2]] degTriVnp =
      ([[0, 1, 2]], true) ∧
    triangulate_face_shewchuk shewchukExtNone [[0, 1, 2]] degTriVnp =
      ([[0, 1, 2]], true) :=
  ⟨by decide, by decide, by decide⟩

/-- C8 (amended): a single ring of exactly three indices (after duplicate
removal, for the robust strategy) is returned as a successful triangle
without the normal ever being computed, even when its Newell accumulation is
zero.  Past that fast path, the fast/earcut strategy fails with no triangles
whenever the accumulated Newell vector is exactly zero; the robust/Shewchuk
strategy computes the zero-normal flag but ignores it — its outcome is
whatever the external triangulator produces, and can be success on a
zero-normal face. -/
theorem zero_normal_amended :
    (∀ (ext : List Vec3 → List Nat → List Nat) (face : List (List Nat)) (vnp : List Vec3),
      ¬(face.length = 1 ∧ (face.headD []).length = 3) →
      newellAccum (faceCoords face vnp) = (0, 0, 0) →
      triangulate_face_mapbox_earcut ext face vnp = ([], false)) ∧
    (newellAccum (faceCoords [[0, 1, 2, 3]] degQuadVnp) = (0, 0, 0) ∧
      ([[0, 1, 2, 3]].map dedupRing = [[0, 1, 2, 3]]) ∧
      (triangulate_face_shewchuk shewchukExtTri [[0, 1, 2, 3]] degQuadVnp).2 = true) := by
  refine ⟨?_, by decide, by decide, by decide⟩
  intro ext face vnp hfast hzero
  rw [triangulate_face_mapbox_earcut, if_neg hfast]
  simp [get_normal_newell, hzero]

/-- Witness for the amended C8: the collapsed quad under the earcut strategy. -/
theorem zero_normal_amended_witness :
    triangulate_face_mapbox_earcut earcutExtDemo [[0, 1, 2, 3]] degQuadVnp =
      ([], false) :=
  zero_normal_amended.1 earcutExtDemo [[0, 1, 2, 3]] degQuadVnp (by decide) (by decide)

/-- C9: a scalar material `value` is inherited unchanged by every triangle of
a MultiSurface (first conjunct — this covers the claim's concrete
single-value case), but the Solid branch reads the `values` entry from
`values[0][i]` — the first shell — for every shell: triangulating a Solid of
two one-triangle shells with material values `[[0], [1]]` yields values
`[[0], [0]]`, the second shell's triangle carrying material 0 instead of its
own entry 1.  The claim's "entry at that face's position in the nesting"
fails at the Solid depth (and MultiSolid/CompositeSolid hardcode
`values[0][0][i]` likewise). -/
theorem solid_material_inheritance_bug :
    (∀ (tf : List (List Nat) → List (List Nat) × Bool)
      (bnd : List (List (List Nat))) (v : Nat),
      (triangulateMSMat tf bnd (.value v)).2 = MSMat.value v) ∧
    (triangulateSolidMat tfNever [[[[0, 1, 2]]], [[[3, 4, 5]]]]
        (.values [[some 0], [some 1]]) =
      ([[[[0, 1, 2]]], [[[3, 4, 5]]]], .values [[some 0], [some 0]])) ∧
    SolidMat.values [[some 0], [some 0]] ≠ SolidMat.values [[some 0], [some 1]] :=
  ⟨fun _ _ _ => rfl, by decide, by decide⟩

end Cjio
